import Mathlib

/-!
Shallow embedding of the appointment-scheduling core of the Rocket Medic
domain-driven-design repository: the JS string and date primitives the code
relies on, the data model (doctors, patients, appointments, working hours),
the in-memory repositories, the doctor-availability service, the
working-hours service, and the appointment orchestrator.  Machine behavior
of JavaScript (string truthiness, NaN propagation, strict equality,
assignment expressions inside filter callbacks) is made explicit.  The
process time zone is modelled as UTC, so the locale date and time renderings
are computed from the epoch-millisecond value directly.
-/

set_option autoImplicit false

deriving instance DecidableEq for Except

namespace RocketMedic

/-- Does the first character list start with the second one? -/
def listStartsWith : List Char → List Char → Bool
  | _, [] => true
  | [], _ :: _ => false
  | a :: as, b :: bs => a = b && listStartsWith as bs

/-- Substring containment on character lists. -/
def listContainsSub : List Char → List Char → Bool
  | hay, need =>
    if listStartsWith hay need then true
    else
      match hay with
      | [] => false
      | _ :: t => listContainsSub t need

/-- JS String.prototype.includes restricted to plain substrings. -/
def jsIncludes (s sub : String) : Bool :=
  listContainsSub s.data sub.data

/-- One left-to-right pass deleting every occurrence of "AM" or "PM":
the semantics of the JS global-regex replace of AM-or-PM by the empty
string used in timeToMinutes. -/
def stripAmPmChars : List Char → List Char
  | [] => []
  | 'A' :: 'M' :: rest => stripAmPmChars rest
  | 'P' :: 'M' :: rest => stripAmPmChars rest
  | c :: rest => c :: stripAmPmChars rest

/-- Drop leading whitespace characters. -/
def dropLeadingWS : List Char → List Char
  | [] => []
  | c :: rest => if c.isWhitespace then dropLeadingWS rest else c :: rest

/-- JS String.prototype.trim on a character list: drop whitespace from
both ends. -/
def chTrim (s : List Char) : List Char :=
  (dropLeadingWS ((dropLeadingWS s).reverse)).reverse

/-- The cleanTime computation of timeToMinutes: remove AM and PM, trim. -/
def stripAmPm (s : String) : String :=
  String.mk (chTrim (stripAmPmChars s.data))

/-- Value of a non-empty list of decimal digits; none when the list is
empty or holds a non-digit. -/
def digitsToNatAux : List Char → Nat → Option Nat
  | [], acc => some acc
  | c :: rest, acc =>
      if c.isDigit then digitsToNatAux rest (acc * 10 + (c.toNat - 48)) else none

/-- Value of a list of decimal digits, none on the empty list or on any
non-digit character. -/
def digitsToNat : List Char → Option Nat
  | [] => none
  | l => digitsToNatAux l 0

/-- JS Number coercion of a string, on the fragment of inputs this program
can produce: the empty (or all-blank) string converts to 0, a string of
decimal digits converts to its value, and everything else is NaN (modelled
as none).  Signs, fractions and exponents never occur in the scanned
strings, so they are mapped to NaN like any other non-digit text. -/
def jsNumber (s : String) : Option Int :=
  let t := chTrim s.data
  if t = [] then some 0 else (digitsToNat t).map Int.ofNat

/-- Fuel-driven split of a character list on a non-empty separator: the
reversed accumulator holds the current segment; each step either closes a
segment at a separator occurrence or moves one character, so an initial
fuel of the list length plus one always suffices. -/
def jsSplitOnAux (sep : List Char) : Nat → List Char → List Char → List (List Char)
  | 0, s, acc => [acc.reverse ++ s]
  | Nat.succ n, s, acc =>
      match s with
      | [] => [acc.reverse]
      | c :: rest =>
          if listStartsWith (c :: rest) sep then
            acc.reverse :: jsSplitOnAux sep n ((c :: rest).drop sep.length) []
          else
            jsSplitOnAux sep n rest (c :: acc)

/-- JS String.prototype.split on a plain non-empty separator string. -/
def jsSplitOn (sep : String) (s : String) : List String :=
  (jsSplitOnAux sep.data (s.data.length + 1) s.data []).map String.mk

/-- JS strict equality of two number values, where none stands for NaN:
NaN is equal to nothing, not even itself. -/
def jsStrictEqNum : Option Int → Option Int → Bool
  | some a, some b => a = b
  | _, _ => false

/-- JS numeric comparison a >= b with NaN (none) operands: false. -/
def jsGeNum : Option Int → Option Int → Bool
  | some a, some b => b ≤ a
  | _, _ => false

/-- JS numeric comparison a <= b with NaN (none) operands: false. -/
def jsLeNum : Option Int → Option Int → Bool
  | some a, some b => a ≤ b
  | _, _ => false

/-- A thrown JS error: new Error(msg) raised on purpose by the code, or
a TypeError or RangeError raised by the runtime. -/
inductive JsError where
  | error (msg : String) : JsError
  | typeError (msg : String) : JsError
  | rangeError (msg : String) : JsError
deriving DecidableEq

/-- A JS Date object: either a valid instant (epoch milliseconds) or an
Invalid Date whose time value is NaN. -/
inductive JsDate where
  | valid (time : Int) : JsDate
  | invalid : JsDate
deriving DecidableEq

/-- Date.prototype.getTime, with none for NaN. -/
def JsDate.getTime : JsDate → Option Int
  | .valid t => some t
  | .invalid => none

def msPerDay : Int := 86400000

def msPerHour : Int := 3600000

def msPerMinute : Int := 60000

def weekdayNames : List String :=
  ["Sunday", "Monday", "Tuesday", "Wednesday", "Thursday", "Friday", "Saturday"]

/-- toLocaleDateString with the long weekday option, time zone UTC:
day zero of the epoch was a Thursday. -/
def JsDate.weekdayLong : JsDate → String
  | .valid t => (weekdayNames.getD (((Int.fdiv t msPerDay) + 4).emod 7).toNat "")
  | .invalid => "Invalid Date"

/-- Two-digit decimal rendering. -/
def pad2 (n : Nat) : String :=
  if n < 10 then "0" ++ toString n else toString n

/-- toLocaleTimeString with 2-digit hour and minute in the en-US locale,
time zone UTC: a 12-hour clock string such as "09:05 AM". -/
def JsDate.clockTime12 : JsDate → String
  | .valid t =>
      let tod := (Int.emod t msPerDay).toNat
      let h24 := tod / 3600000
      let m := tod % 3600000 / 60000
      let h12 := if h24 % 12 = 0 then 12 else h24 % 12
      let period := if h24 < 12 then "AM" else "PM"
      pad2 h12 ++ ":" ++ pad2 m ++ " " ++ period
  | .invalid => "Invalid Date"

/-- Zero-left-pad a number to the given width. -/
def padN (w : Nat) (n : Nat) : String :=
  let s := toString n
  if s.length < w then String.mk (List.replicate (w - s.length) '0') ++ s else s

/-- Proleptic-Gregorian year, month and day of a day count from
1970-01-01 (the civil-from-days algorithm on 400-year eras). -/
def civilFromDays (z0 : Int) : Int × Nat × Nat :=
  let z := z0 + 719468
  let era := z.fdiv 146097
  let doe := (z - era * 146097).toNat
  let yoe := (doe - doe / 1460 + doe / 36524 - doe / 146096) / 365
  let doy := doe - (365 * yoe + yoe / 4 - yoe / 100)
  let mp := (5 * doy + 2) / 153
  let d := doy - (153 * mp + 2) / 5 + 1
  let m := if mp < 10 then mp + 3 else mp - 9
  let y : Int := (yoe : Int) + era * 400 + (if m ≤ 2 then 1 else 0)
  (y, m, d)

/-- The year field of an ISO date string: four digits inside 0000-9999,
the expanded six-digit signed form outside it. -/
def isoYear (y : Int) : String :=
  if 0 ≤ y ∧ y ≤ 9999 then padN 4 y.toNat
  else if y < 0 then "-" ++ padN 6 (-y).toNat
  else "+" ++ padN 6 y.toNat

/-- Date.prototype.toISOString: the UTC ISO-8601 rendering of a valid
date; on an Invalid Date it throws a RangeError. -/
def JsDate.toISOString : JsDate → Except JsError String
  | .valid t =>
      let days := Int.fdiv t msPerDay
      let tod := (Int.emod t msPerDay).toNat
      let ymd := civilFromDays days
      Except.ok (isoYear ymd.1 ++ "-" ++ padN 2 ymd.2.1 ++ "-" ++ padN 2 ymd.2.2 ++
        "T" ++ padN 2 (tod / 3600000) ++ ":" ++ padN 2 (tod % 3600000 / 60000) ++
        ":" ++ padN 2 (tod % 60000 / 1000) ++ "." ++ padN 3 (tod % 1000) ++ "Z")
  | .invalid => Except.error (JsError.rangeError "Invalid time value")

/-- One day plus time-slot entry of a working-hours list. -/
structure WorkingHour where
  day : String
  timeSlot : String
deriving DecidableEq

/-- Modelled from the spec: the WorkingHours value object (its source file
is absent from the sources; only the documentation shows it).  It is an
ordered collection of day plus time-slot entries held in its hours field,
which the constructor initialises to the empty list. -/
structure WorkingHours where
  hours : List WorkingHour
deriving DecidableEq

/-- The Doctor entity: identity is the id field; the constructor stores the
scalar attributes and a fresh WorkingHours object. -/
structure Doctor where
  id : String
  rcm : String
  name : String
  specialty : List String
  phoneNumber : String
  workingHours : WorkingHours
deriving DecidableEq

/-- The Patient entity, restricted to the fields the verified operations
read: identity lookup uses id, the notification side effect reads email, and
name is carried along.  The remaining constructor attributes and the
initially empty collections are never read by the code under verification. -/
structure Patient where
  id : String
  name : String
  email : String
deriving DecidableEq

/-- The appointment record built by the orchestrator.  Its id comes from
the request and may be undefined (none).  The patient and doctor fields
hold the full looked-up objects, modelled by value. -/
structure Appointment where
  id : Option String
  date : JsDate
  patient : Patient
  doctor : Doctor
  reason : String
  status : String
  observations : String
deriving DecidableEq

/-- Modelled from the spec: the generic Repository base class (its source
file is absent from the sources; only its unit tests and its subclasses
are present).  It is an in-memory keyed collection kept in insertion
order; add fails on a duplicate id, findById returns the entity or an
absent result, findAll returns all values in insertion order, and update
fails when the id is absent. -/
structure Repo (κ : Type) (α : Type) where
  entries : List (κ × α)
deriving DecidableEq

/-- Is the key already present? -/
def Repo.hasKey {κ α : Type} [DecidableEq κ] (r : Repo κ α) (id : κ) : Bool :=
  r.entries.any (fun e => e.1 = id)

/-- findById: first entry stored under the key, or absent. -/
def Repo.findById {κ α : Type} [DecidableEq κ] (r : Repo κ α) (id : κ) : Option α :=
  (r.entries.find? (fun e => e.1 = id)).map Prod.snd

/-- findAll: every stored value, in insertion order. -/
def Repo.findAll {κ α : Type} (r : Repo κ α) : List α :=
  r.entries.map Prod.snd

/-- add: duplicate-key error, otherwise append. -/
def Repo.add {κ α : Type} [DecidableEq κ] (r : Repo κ α) (id : κ) (entity : α) :
    Except JsError (Repo κ α) :=
  if r.hasKey id then Except.error (JsError.error "Entity already exists")
  else Except.ok ⟨r.entries ++ [(id, entity)]⟩

/-- update: error when the id is absent, otherwise replace the stored
value in place. -/
def Repo.update {κ α : Type} [DecidableEq κ] (r : Repo κ α) (id : κ) (entity : α) :
    Except JsError (Repo κ α) :=
  if r.hasKey id then
    Except.ok ⟨r.entries.map (fun e => if e.1 = id then (e.1, entity) else e)⟩
  else Except.error (JsError.error "Entity not found")

/-- In-place mutation of the object stored under a key: in JS the object
returned by findById is the stored object itself, so mutating it mutates
the store. -/
def Repo.mutateAt {κ α : Type} [DecidableEq κ] (r : Repo κ α) (id : κ) (f : α → α) :
    Repo κ α :=
  ⟨r.entries.map (fun e => if e.1 = id then (e.1, f e.2) else e)⟩

/-- The whole in-memory system state: one repository per aggregate root.
Appointment keys are the request-supplied ids, which may be undefined. -/
structure State where
  appointments : Repo (Option String) Appointment
  doctors : Repo String Doctor
  patients : Repo String Patient
deriving DecidableEq

/-- AppointmentRepository.findByDoctorId.  The filter callback is the
assignment expression putting doctorId into appointment.doctor.id (a
single equals sign, not the strict-equality of the sibling findByStatus),
so every stored appointment has its doctor id overwritten, and the value
of the assignment expression is doctorId itself: when doctorId is truthy
(a non-empty string) every appointment passes the filter, when it is the
empty string none does.  Returns the mutated store and the filter result. -/
def findByDoctorId (r : Repo (Option String) Appointment) (doctorId : String) :
    Repo (Option String) Appointment × List Appointment :=
  let mutated : List (Option String × Appointment) :=
    r.entries.map (fun e => (e.1, { e.2 with doctor := { e.2.doctor with id := doctorId } }))
  (⟨mutated⟩, if doctorId = "" then [] else mutated.map Prod.snd)

/-- The timeToMinutes closure of isTimeWithinSlot, applied to a string:
detect AM and PM markers, strip them, split on the colon, convert the
pieces with Number, shift PM hours (other than 12) by twelve and map hour
12 AM to zero, and combine; a missing or NaN minutes component counts as
zero, while NaN hours make the whole result NaN (none). -/
def timeToMinutes (timeStr : String) : Option Int :=
  let isPM := jsIncludes timeStr "PM"
  let isAM := jsIncludes timeStr "AM"
  let parts := jsSplitOn ":" (stripAmPm timeStr)
  let hours := jsNumber (parts.headD "")
  let minutes : Int := ((parts[1]?).bind jsNumber).getD 0
  match hours with
  | none => none
  | some h =>
      let adjusted : Int :=
        if isPM ∧ h ≠ 12 then h + 12
        else if isAM ∧ h = 12 then 0
        else h
      some (adjusted * 60 + minutes)

/-- timeToMinutes applied to a possibly-undefined argument: the JS
callback immediately calls includes on its argument, so an undefined
argument (a missing destructured component) raises a TypeError. -/
def timeToMinutesArg : Option String → Except JsError (Option Int)
  | none => Except.error (JsError.typeError "Cannot read properties of undefined")
  | some s => Except.ok (timeToMinutes s)

/-- DoctorAvailabilityService.isTimeWithinSlot: split the slot on the
separator, convert the queried time and the two boundaries to minutes,
and test start <= time <= end with JS numeric comparisons (false on NaN). -/
def isTimeWithinSlot (time timeSlot : String) : Except JsError Bool :=
  let parts := jsSplitOn " - " timeSlot
  let timeInMinutes := timeToMinutes time
  match timeToMinutesArg parts[0]? with
  | Except.error e => Except.error e
  | Except.ok startInMinutes =>
      match timeToMinutesArg parts[1]? with
      | Except.error e => Except.error e
      | Except.ok endInMinutes =>
          Except.ok (jsGeNum timeInMinutes startInMinutes &&
            jsLeNum timeInMinutes endInMinutes)

/-- Array.prototype.some with a callback that may throw: stop at the
first true, propagate the first thrown error. -/
def someE {α : Type} (f : α → Except JsError Bool) : List α → Except JsError Bool
  | [] => Except.ok false
  | x :: xs =>
      match f x with
      | Except.error e => Except.error e
      | Except.ok true => Except.ok true
      | Except.ok false => someE f xs

/-- DoctorAvailabilityService.hasAppointmentConflict: fetch the doctor
appointments through findByDoctorId (whose mutation of the store is
threaded through) and test whether any has the exact same timestamp under
JS strict equality.  Returns the updated state and the conflict flag. -/
def hasAppointmentConflict (st : State) (doctorId : String) (date : JsDate) :
    State × Bool :=
  let scan := findByDoctorId st.appointments doctorId
  ({ st with appointments := scan.1 },
    scan.2.any (fun a => jsStrictEqNum a.date.getTime date.getTime))

/-- DoctorAvailabilityService.isWithinWorkingHours: render the weekday
name and the 12-hour clock string of the date, then scan the working
hours; the short-circuiting conjunction only parses the slot when the day
matches. -/
def isWithinWorkingHours (doctor : Doctor) (date : JsDate) : Except JsError Bool :=
  let dayOfWeek := date.weekdayLong
  let timeSlot := date.clockTime12
  someE
    (fun wh =>
      if wh.day = dayOfWeek then isTimeWithinSlot timeSlot wh.timeSlot
      else Except.ok false)
    doctor.workingHours.hours

/-- The date argument of isDoctorAvailable: a Date object (valid or
invalid) or any non-Date value. -/
inductive DateArg where
  | date (d : JsDate) : DateArg
  | nonDate : DateArg
deriving DecidableEq

/-- DoctorAvailabilityService.isDoctorAvailable: look the doctor up,
reject a non-Date argument, then run the conflict check (which mutates
the appointment store through findByDoctorId) and the working-hours
check.  Only the instanceof test guards the date: an Invalid Date object
passes it.  Each rejection branch logs a template literal that evaluates
date.toISOString() before returning false, so on an Invalid Date the
rejection path throws the RangeError of toISOString instead of
returning. -/
def isDoctorAvailable (st : State) (doctorId : String) (date : DateArg) :
    Except JsError Bool × State :=
  match st.doctors.findById doctorId with
  | none => (Except.error (JsError.error "Doctor not found"), st)
  | some doctor =>
      match date with
      | DateArg.nonDate => (Except.error (JsError.error "Invalid date"), st)
      | DateArg.date d =>
          let scan := hasAppointmentConflict st doctorId d
          if scan.2 then
            match d.toISOString with
            | Except.error e => (Except.error e, scan.1)
            | Except.ok _ => (Except.ok false, scan.1)
          else
            match isWithinWorkingHours doctor d with
            | Except.error e => (Except.error e, scan.1)
            | Except.ok true => (Except.ok true, scan.1)
            | Except.ok false =>
                match d.toISOString with
                | Except.error e => (Except.error e, scan.1)
                | Except.ok _ => (Except.ok false, scan.1)

/-- DoctorWorkingHoursService.addDoctorWorkingHours: look the doctor up,
raise the duplicate error when an identical day and time-slot entry
already exists, otherwise push the entry (which, by aliasing, already
mutates the stored doctor) and call repository update with the doctor
own id. -/
def addDoctorWorkingHours (st : State) (doctorId day timeSlot : String) :
    Except JsError Doctor × State :=
  match st.doctors.findById doctorId with
  | none => (Except.error (JsError.error "Doctor not found"), st)
  | some doctor =>
      if doctor.workingHours.hours.any
          (fun wh => wh.day = day ∧ wh.timeSlot = timeSlot) then
        (Except.error (JsError.error "Working hours already exists for this doctor"), st)
      else
        let doctor' :=
          { doctor with
            workingHours := ⟨doctor.workingHours.hours ++ [⟨day, timeSlot⟩]⟩ }
        let st₁ := { st with doctors := st.doctors.mutateAt doctorId (fun _ => doctor') }
        match st₁.doctors.update doctor'.id doctor' with
        | Except.error e => (Except.error e, st₁)
        | Except.ok repo => (Except.ok doctor', { st with doctors := repo })

/-- DoctorWorkingHoursService.removeWorkingHours: look the doctor up,
then reassign its hours to the entries whose day is different from the
given day AND whose time slot is different from the given slot (the
conjunction as written in the source), and call repository update. -/
def removeWorkingHours (st : State) (doctorId day timeSlot : String) :
    Except JsError Doctor × State :=
  match st.doctors.findById doctorId with
  | none => (Except.error (JsError.error "Doctor not found"), st)
  | some doctor =>
      let doctor' :=
        { doctor with
          workingHours :=
            ⟨doctor.workingHours.hours.filter
              (fun h => h.day ≠ day ∧ h.timeSlot ≠ timeSlot)⟩ }
      let st₁ := { st with doctors := st.doctors.mutateAt doctorId (fun _ => doctor') }
      match st₁.doctors.update doctor'.id doctor' with
      | Except.error e => (Except.error e, st₁)
      | Except.ok repo => (Except.ok doctor', { st with doctors := repo })

/-- DoctorWorkingHoursService.listWorkingHours: look the doctor up, then
evaluate the call expression doctor.workingHours.hours().  The hours
property of every doctor built by this codebase is an Array (the
WorkingHours constructor sets it to the empty list, and the only
reassignments store filtered arrays), and calling an Array value raises a
TypeError at run time, so the lookup-success branch always raises. -/
def listWorkingHours (st : State) (doctorId : String) :
    Except JsError (List WorkingHour) :=
  match st.doctors.findById doctorId with
  | none => Except.error (JsError.error "Doctor not found")
  | some _ => Except.error (JsError.typeError "doctor.workingHours.hours is not a function")

/-- The date field of an appointment request.  In the source a string
date is first converted with the Date constructor, which always yields a
Date object (possibly an Invalid Date); the request is modelled as
carrying that resulting Date, so the date case covers both the string and
the Date input shapes, and the other case covers every remaining value. -/
inductive ReqDate where
  | date (d : JsDate) : ReqDate
  | other : ReqDate
deriving DecidableEq

/-- The appointment request accepted by the orchestrator.  patientId and
doctorId model the flat id fields, patientRefId and doctorRefId model the
optionally nested patient and doctor object id fields reached with
optional chaining; none stands for undefined. -/
structure AppointmentRequest where
  id : Option String
  date : ReqDate
  patientId : Option String
  patientRefId : Option String
  doctorId : Option String
  doctorRefId : Option String
  reason : String
  status : Option String
  observations : Option String
deriving DecidableEq

/-- JS logical-or of two possibly-undefined strings: the left operand
when it is truthy (defined and non-empty), otherwise the right operand. -/
def jsOrStr (a b : Option String) : Option String :=
  match a with
  | some s => if s = "" then b else some s
  | none => b

/-- JS logical-or of a possibly-undefined string against a default
string literal. -/
def jsOrStrD (a : Option String) (b : String) : String :=
  match a with
  | some s => if s = "" then b else s
  | none => b

/-- The notification side effect fired on a successful scheduling: an
email to the patient address mentioning the doctor name and the
appointment date (the rendered message text is not inspected by any
property). -/
structure Notification where
  email : String
  doctorName : String
  date : JsDate
deriving DecidableEq

/-- AppointmentService.execute: validate the date, resolve the two id
shapes, require both ids, look up the patient and then the doctor, run
the availability check (whose store mutation carries over even on
failure), build the appointment record with default status scheduled and
default empty observations, store it keyed by its id, and fire the
notification.  Returns the result, the final state, and the list of
notifications sent. -/
def execute (st : State) (req : AppointmentRequest) :
    Except JsError Appointment × State × List Notification :=
  match req.date with
  | ReqDate.other => (Except.error (JsError.error "Invalid appointment date"), st, [])
  | ReqDate.date JsDate.invalid =>
      (Except.error (JsError.error "Invalid appointment date"), st, [])
  | ReqDate.date (JsDate.valid t) =>
      let date := JsDate.valid t
      match jsOrStr req.patientId req.patientRefId,
          jsOrStr req.doctorId req.doctorRefId with
      | some pid, some did =>
          if pid = "" ∨ did = "" then
            (Except.error (JsError.error "Patient ID and Doctor ID are required"), st, [])
          else
            match st.patients.findById pid with
            | none => (Except.error (JsError.error "Patient not found"), st, [])
            | some patient =>
                match st.doctors.findById did with
                | none => (Except.error (JsError.error "Doctor not found"), st, [])
                | some doctor =>
                    match isDoctorAvailable st did (DateArg.date date) with
                    | (Except.error e, st') => (Except.error e, st', [])
                    | (Except.ok false, st') =>
                        (Except.error
                          (JsError.error "Doctor is not available at the requested time"),
                          st', [])
                    | (Except.ok true, st') =>
                        let appointment : Appointment :=
                          { id := req.id
                            date := date
                            patient := patient
                            doctor := doctor
                            reason := req.reason
                            status := jsOrStrD req.status "scheduled"
                            observations := jsOrStrD req.observations "" }
                        match st'.appointments.add appointment.id appointment with
                        | Except.error e => (Except.error e, st', [])
                        | Except.ok repo =>
                            (Except.ok appointment,
                              { st' with appointments := repo },
                              [{ email := patient.email
                                 doctorName := doctor.name
                                 date := date }])
      | _, _ =>
          (Except.error (JsError.error "Patient ID and Doctor ID are required"), st, [])

/-- AppointmentService.findById: the repository lookup, raising when the
appointment is absent. -/
def serviceFindById (st : State) (id : Option String) : Except JsError Appointment :=
  match st.appointments.findById id with
  | none => Except.error (JsError.error "Appointment not found")
  | some a => Except.ok a

/-! Concrete entities and states used by the counterexamples and the
witnesses. -/

def mondaySlotW : String := "09:00 AM - 05:00 PM"

def patP1 : Patient := ⟨"p1", "Pat One", "p1@example.com"⟩

def docD1 : Doctor := ⟨"d1", "rcm1", "One", [], "", ⟨[⟨"Monday", mondaySlotW⟩]⟩⟩

def docD2 : Doctor := ⟨"d2", "rcm2", "Two", [], "", ⟨[]⟩⟩

/-- Monday 1970-01-05, 10:00 in epoch milliseconds. -/
def mondayTenAM : Int := 381600000

/-- Monday 1970-01-05, 08:00 in epoch milliseconds. -/
def mondayEightAM : Int := 374400000

/-- Monday 1970-01-05, 09:00 in epoch milliseconds. -/
def mondayNineAM : Int := 378000000

/-- Monday 1970-01-05, 17:00 in epoch milliseconds. -/
def mondayFivePM : Int := 406800000

/-- An appointment of doctor d2 at Monday 10:00. -/
def apptOfD2 : Appointment :=
  ⟨some "a1", JsDate.valid mondayTenAM, patP1, docD2, "r", "scheduled", ""⟩

/-- A state where only doctor d2 has an appointment at Monday 10:00. -/
def stConflict : State :=
  ⟨⟨[(some "a1", apptOfD2)]⟩, ⟨[("d1", docD1), ("d2", docD2)]⟩, ⟨[("p1", patP1)]⟩⟩

/-- A state with doctor d1, patient p1 and no appointments. -/
def stClean : State := ⟨⟨[]⟩, ⟨[("d1", docD1)]⟩, ⟨[("p1", patP1)]⟩⟩

/-- A request naming patient p1 and doctor d1 at Monday 10:00. -/
def reqW : AppointmentRequest :=
  ⟨some "a1", ReqDate.date (JsDate.valid mondayTenAM), some "p1", none, some "d1", none,
    "checkup", none, none⟩

/-- The appointment record reqW produces. -/
def apptW : Appointment :=
  ⟨some "a1", JsDate.valid mondayTenAM, patP1, docD1, "checkup", "scheduled", ""⟩

/-- The state after executing reqW from stClean. -/
def stAfterW : State := ⟨⟨[(some "a1", apptW)]⟩, ⟨[("d1", docD1)]⟩, ⟨[("p1", patP1)]⟩⟩

/-- A request with a valid date, an unknown patient id, and no doctor id. -/
def reqNoDoctorId : AppointmentRequest :=
  ⟨none, ReqDate.date (JsDate.valid 0), some "ghost", none, none, none, "", none, none⟩

/-- A request with a valid date, an unknown patient id, and doctor d1. -/
def reqGhostPatient : AppointmentRequest :=
  ⟨none, ReqDate.date (JsDate.valid 0), some "ghost", none, some "d1", none, "", none, none⟩

/-- A doctor with two Monday slots, distinct time ranges. -/
def docD7 : Doctor :=
  ⟨"d7", "", "Seven", [], "",
    ⟨[⟨"Monday", mondaySlotW⟩, ⟨"Monday", "01:00 PM - 03:00 PM"⟩]⟩⟩

/-- A state holding only doctor d7. -/
def stD7 : State := ⟨⟨[]⟩, ⟨[("d7", docD7)]⟩, ⟨[]⟩⟩

/-- A doctor whose only Monday slot is malformed: no " - " separator. -/
def docMal : Doctor := ⟨"dm", "", "Mal", [], "", ⟨[⟨"Monday", "0900AM-0500PM"⟩]⟩⟩

/-- A state holding only the malformed-slot doctor. -/
def stMal : State := ⟨⟨[]⟩, ⟨[("dm", docMal)]⟩, ⟨[]⟩⟩

/-! Helper lemmas. -/

/-- JS strict equality against a definite number is definite equality. -/
theorem jsStrictEqNum_some_right_eq_false {x : Option Int} {t : Int} (h : x ≠ some t) :
    jsStrictEqNum x (some t) = false := by
  cases x with
  | none => rfl
  | some v =>
      simp only [jsStrictEqNum, decide_eq_false_iff_not]
      intro hv
      exact h (by rw [hv])

/-- The timestamp scan over the mutated entries is false when no stored
appointment has the queried timestamp: the doctor-id overwrite leaves
every date unchanged. -/
theorem any_overwritten_eq_false (l : List (Option String × Appointment))
    (doctorId : String) (t : Int) (h : ∀ e ∈ l, (e.2).date.getTime ≠ some t) :
    ((l.map (fun e => (e.1, { e.2 with doctor := { e.2.doctor with id := doctorId } }))).map
      Prod.snd).any (fun a => jsStrictEqNum a.date.getTime (some t)) = false := by
  induction l with
  | nil => rfl
  | cons e es ih =>
      simp only [List.map_cons, List.any_cons, Bool.or_eq_false_iff]
      exact ⟨jsStrictEqNum_some_right_eq_false (h e (List.mem_cons_self e es)),
        ih (fun x hx => h x (List.mem_cons_of_mem e hx))⟩

/-- The conflict scan reports no conflict when no stored appointment has
the queried timestamp. -/
theorem hasAppointmentConflict_eq_false (st : State) (doctorId : String) (t : Int)
    (h : ∀ a ∈ st.appointments.findAll, a.date.getTime ≠ some t) :
    (hasAppointmentConflict st doctorId (JsDate.valid t)).2 = false := by
  unfold hasAppointmentConflict findByDoctorId
  simp only [Repo.findAll] at h
  by_cases hd : doctorId = ""
  · simp [hd]
  · simp only [hd, Bool.false_eq_true, reduceIte, JsDate.getTime]
    exact any_overwritten_eq_false st.appointments.entries doctorId t
      (fun e he => h e.2 (List.mem_map_of_mem Prod.snd he))

/-- A some-scan whose callback never throws never throws. -/
theorem someE_ok {α : Type} (f : α → Except JsError Bool) (l : List α)
    (h : ∀ a ∈ l, ∃ b, f a = Except.ok b) : ∃ b, someE f l = Except.ok b := by
  induction l with
  | nil => exact ⟨false, rfl⟩
  | cons x xs ih =>
      obtain ⟨b, hb⟩ := h x (List.mem_cons_self x xs)
      cases b with
      | true => exact ⟨true, by simp [someE, hb]⟩
      | false =>
          obtain ⟨c, hc⟩ := ih (fun a ha => h a (List.mem_cons_of_mem x ha))
          exact ⟨c, by simp [someE, hb, hc]⟩

/-- A slot containing the separator is parsed without raising. -/
theorem isTimeWithinSlot_ok_of_sep (time timeSlot : String)
    (h : 2 ≤ (jsSplitOn " - " timeSlot).length) :
    ∃ b, isTimeWithinSlot time timeSlot = Except.ok b := by
  rcases hp : jsSplitOn " - " timeSlot with _ | ⟨x, _ | ⟨y, rest⟩⟩
  · rw [hp] at h; simp at h
  · rw [hp] at h; simp at h
  · refine ⟨jsGeNum (timeToMinutes time) (timeToMinutes x) &&
      jsLeNum (timeToMinutes time) (timeToMinutes y), ?_⟩
    simp [isTimeWithinSlot, hp, timeToMinutesArg]

/-- A slot missing the separator raises the TypeError of the undefined
destructured end boundary. -/
theorem isTimeWithinSlot_error_of_no_sep (time timeSlot : String)
    (h : (jsSplitOn " - " timeSlot).length < 2) :
    isTimeWithinSlot time timeSlot =
      Except.error (JsError.typeError "Cannot read properties of undefined") := by
  rcases hp : jsSplitOn " - " timeSlot with _ | ⟨x, _ | ⟨y, rest⟩⟩
  · simp [isTimeWithinSlot, hp, timeToMinutesArg]
  · simp [isTimeWithinSlot, hp, timeToMinutesArg]
  · rw [hp] at h; simp at h; omega

/-- The working-hours scan never throws when every slot of the doctor
contains the separator. -/
theorem isWithinWorkingHours_ok (doctor : Doctor) (d : JsDate)
    (h : ∀ wh ∈ doctor.workingHours.hours, 2 ≤ (jsSplitOn " - " wh.timeSlot).length) :
    ∃ b, isWithinWorkingHours doctor d = Except.ok b := by
  unfold isWithinWorkingHours
  apply someE_ok
  intro wh hwh
  by_cases hd : wh.day = d.weekdayLong
  · simpa [hd] using isTimeWithinSlot_ok_of_sep d.clockTime12 wh.timeSlot (h wh hwh)
  · exact ⟨false, by simp [hd]⟩

/-- Strict equality against NaN is false. -/
theorem jsStrictEqNum_none_right (x : Option Int) : jsStrictEqNum x none = false := by
  cases x <;> rfl

/-- A comparison whose left operand is NaN is false. -/
theorem jsGeNum_none_left (z : Option Int) : jsGeNum none z = false := by
  cases z <;> rfl

/-- A some-scan whose callback is everywhere ok-false yields ok-false. -/
theorem someE_all_false {α : Type} (f : α → Except JsError Bool) (l : List α)
    (h : ∀ a ∈ l, f a = Except.ok false) : someE f l = Except.ok false := by
  induction l with
  | nil => rfl
  | cons x xs ih =>
      have hx := h x (List.mem_cons_self x xs)
      simp [someE, hx, ih (fun a ha => h a (List.mem_cons_of_mem x ha))]

/-- An Invalid Date renders as the clock string "Invalid Date", whose
minutes are NaN, so a separator-containing slot compares false. -/
theorem isTimeWithinSlot_invalidTime_false (timeSlot : String)
    (hsep : 2 ≤ (jsSplitOn " - " timeSlot).length) :
    isTimeWithinSlot "Invalid Date" timeSlot = Except.ok false := by
  rcases hp : jsSplitOn " - " timeSlot with _ | ⟨x, _ | ⟨y, rest⟩⟩
  · rw [hp] at hsep; simp at hsep
  · rw [hp] at hsep; simp at hsep
  · have ht : timeToMinutes "Invalid Date" = none := rfl
    simp [isTimeWithinSlot, hp, timeToMinutesArg, ht, jsGeNum_none_left]

/-- With every slot separator-containing, the working-hours scan on an
Invalid Date returns false: no day is named "Invalid Date" matters, since
even a matching day compares NaN minutes. -/
theorem isWithinWorkingHours_invalid (doctor : Doctor)
    (h : ∀ wh ∈ doctor.workingHours.hours, 2 ≤ (jsSplitOn " - " wh.timeSlot).length) :
    isWithinWorkingHours doctor JsDate.invalid = Except.ok false := by
  unfold isWithinWorkingHours
  apply someE_all_false
  intro wh hwh
  by_cases hd : wh.day = (JsDate.invalid).weekdayLong
  · rw [if_pos hd]
    exact isTimeWithinSlot_invalidTime_false wh.timeSlot (h wh hwh)
  · rw [if_neg hd]

/-- The conflict scan on an Invalid Date finds nothing: NaN is strictly
equal to no timestamp. -/
theorem hasAppointmentConflict_invalid (st : State) (doctorId : String) :
    (hasAppointmentConflict st doctorId JsDate.invalid).2 = false := by
  unfold hasAppointmentConflict findByDoctorId
  by_cases hd : doctorId = ""
  · simp [hd]
  · simp only [hd, Bool.false_eq_true, reduceIte]
    rw [List.any_eq_false]
    intro a ha
    simp [JsDate.getTime, jsStrictEqNum_none_right]

/-- A found entity is among the values of the store. -/
theorem Repo.mem_findAll_of_findById {κ α : Type} [DecidableEq κ] {r : Repo κ α}
    {k : κ} {v : α} (h : r.findById k = some v) : v ∈ r.findAll := by
  unfold Repo.findById at h
  obtain ⟨e, he, hev⟩ := Option.map_eq_some'.1 h
  exact hev ▸ List.mem_map_of_mem Prod.snd (List.mem_of_find?_eq_some he)

/-- After a successful add, findById returns the added entity. -/
theorem Repo.findById_add {κ α : Type} [DecidableEq κ] {r r' : Repo κ α} {k : κ} {v : α}
    (h : r.add k v = Except.ok r') : r'.findById k = some v := by
  unfold Repo.add at h
  by_cases hk : r.hasKey k
  · simp [hk] at h
  · simp only [hk, Bool.false_eq_true, reduceIte] at h
    have hr : r' = ⟨r.entries ++ [(k, v)]⟩ := (Except.ok.inj h).symm
    subst hr
    unfold Repo.findById
    have hfind : r.entries.find? (fun e => decide (e.1 = k)) = none := by
      rw [List.find?_eq_none]
      intro e he
      simp only [decide_eq_true_eq]
      intro hek
      exact hk (List.any_eq_true.2 ⟨e, he, by simp [hek]⟩)
    rw [List.find?_append, hfind]
    simp [List.find?]

/-! The claims. -/

/-- C1: the conflict step of isDoctorAvailable is claimed to fire exactly
on appointments of the queried doctor at the exact timestamp.  In the
code the findByDoctorId filter is an assignment, so every stored
appointment is scanned: here no stored appointment belongs to doctor d1,
one of doctor d2 sits at Monday 10:00, and the conflict step still
reports a conflict for d1 at that instant. -/
theorem claim_c1_conflict_fires_on_other_doctor :
    (∀ a ∈ stConflict.appointments.findAll, a.doctor.id ≠ "d1") ∧
    (hasAppointmentConflict stConflict "d1" (JsDate.valid mondayTenAM)).2 = true := by
  exact ⟨by decide, rfl⟩

/-- C2: isDoctorAvailable is claimed to leave the appointment store
unchanged.  The conflict scan in fact overwrites the doctor id of every
stored appointment with the queried id: the stored appointment of doctor
d2 carries doctor id d1 after the call. -/
theorem claim_c2_conflict_scan_mutates_store :
    stConflict.appointments.findAll.map (fun a => a.doctor.id) = ["d2"] ∧
    ((isDoctorAvailable stConflict "d1"
        (DateArg.date (JsDate.valid mondayTenAM))).2).appointments.findAll.map
      (fun a => a.doctor.id) = ["d1"] := by
  exact ⟨rfl, rfl⟩

/-- C3 counterexample: doctor d1 has working hours Monday 09:00 AM to
05:00 PM and no appointment of its own at Monday 10:00, yet the request
returns false, because the buggy conflict scan picks up the appointment
of doctor d2 at that instant. -/
theorem claim_c3_counterexample :
    docD1.workingHours.hours = [⟨"Monday", mondaySlotW⟩] ∧
    (∀ a ∈ stConflict.appointments.findAll, a.doctor.id ≠ "d1") ∧
    stConflict.doctors.findById "d1" = some docD1 ∧
    (isDoctorAvailable stConflict "d1" (DateArg.date (JsDate.valid mondayTenAM))).1 =
      Except.ok false := by
  exact ⟨rfl, by decide, rfl, rfl⟩

/-- C3 amended: for a doctor whose working hours are exactly Monday
09:00 AM to 05:00 PM, when no stored appointment of any doctor sits at
the queried instants, Monday 10:00 is available, Monday 08:00 is not,
and both boundary instants 09:00 and 17:00 are available. -/
theorem claim_c3_working_hours_boundaries (st : State) (doctorId : String) (doctor : Doctor)
    (hdoc : st.doctors.findById doctorId = some doctor)
    (hwh : doctor.workingHours = ⟨[⟨"Monday", mondaySlotW⟩]⟩)
    (hfree : ∀ a ∈ st.appointments.findAll,
      ∀ t ∈ ([mondayTenAM, mondayEightAM, mondayNineAM, mondayFivePM] : List Int),
        a.date.getTime ≠ some t) :
    (isDoctorAvailable st doctorId (DateArg.date (JsDate.valid mondayTenAM))).1 =
        Except.ok true ∧
      (isDoctorAvailable st doctorId (DateArg.date (JsDate.valid mondayEightAM))).1 =
        Except.ok false ∧
      (isDoctorAvailable st doctorId (DateArg.date (JsDate.valid mondayNineAM))).1 =
        Except.ok true ∧
      (isDoctorAvailable st doctorId (DateArg.date (JsDate.valid mondayFivePM))).1 =
        Except.ok true := by
  have avail : ∀ (t : Int) (b : Bool),
      (hasAppointmentConflict st doctorId (JsDate.valid t)).2 = false →
      isWithinWorkingHours doctor (JsDate.valid t) = Except.ok b →
      (isDoctorAvailable st doctorId (DateArg.date (JsDate.valid t))).1 = Except.ok b := by
    intro t b hc hw
    unfold isDoctorAvailable
    rw [hdoc]
    cases b
    · simp [hc, hw, JsDate.toISOString]
    · simp [hc, hw]
  refine ⟨avail mondayTenAM true ?_ ?_, avail mondayEightAM false ?_ ?_,
      avail mondayNineAM true ?_ ?_, avail mondayFivePM true ?_ ?_⟩ <;>
    first
      | exact hasAppointmentConflict_eq_false st doctorId _
          (fun a ha => hfree a ha _ (by simp))
      | (unfold isWithinWorkingHours; rw [hwh]; decide)

/-- C3 witness: the amended statement at the clean concrete state. -/
theorem claim_c3_witness :
    (isDoctorAvailable stClean "d1" (DateArg.date (JsDate.valid mondayTenAM))).1 =
        Except.ok true ∧
      (isDoctorAvailable stClean "d1" (DateArg.date (JsDate.valid mondayEightAM))).1 =
        Except.ok false ∧
      (isDoctorAvailable stClean "d1" (DateArg.date (JsDate.valid mondayNineAM))).1 =
        Except.ok true ∧
      (isDoctorAvailable stClean "d1" (DateArg.date (JsDate.valid mondayFivePM))).1 =
        Except.ok true :=
  claim_c3_working_hours_boundaries stClean "d1" docD1 rfl rfl (by decide)

/-- C4 counterexample: a request with a valid date and a patient id that
is absent from the patient store, but no doctor id, fails with the
required-ids error instead of the claimed Patient-not-found error. -/
theorem claim_c4_counterexample :
    stClean.patients.findById "ghost" = none ∧
      execute stClean reqNoDoctorId =
        (Except.error (JsError.error "Patient ID and Doctor ID are required"),
          stClean, []) := by
  exact ⟨rfl, rfl⟩

/-- C4 amended: when the date is a valid Date, both id shapes resolve to
truthy ids, and the patient id is absent from the patient store, execute
raises Patient not found, leaves the whole state unchanged, and sends no
notification. -/
theorem claim_c4_patient_not_found (st : State) (req : AppointmentRequest) (t : Int)
    (pid did : String)
    (hdate : req.date = ReqDate.date (JsDate.valid t))
    (hpid : jsOrStr req.patientId req.patientRefId = some pid) (hpid0 : pid ≠ "")
    (hdid : jsOrStr req.doctorId req.doctorRefId = some did) (hdid0 : did ≠ "")
    (hmiss : st.patients.findById pid = none) :
    execute st req = (Except.error (JsError.error "Patient not found"), st, []) := by
  unfold execute
  rw [hdate, hpid, hdid]
  simp [hpid0, hdid0, hmiss]

/-- C4 witness: the amended statement at a concrete request naming an
unknown patient and doctor d1. -/
theorem claim_c4_witness :
    execute stClean reqGhostPatient =
      (Except.error (JsError.error "Patient not found"), stClean, []) :=
  claim_c4_patient_not_found stClean reqGhostPatient 0 "ghost" "d1" rfl rfl
    (by decide) rfl (by decide) rfl

/-- C5: every successfully scheduled appointment is immediately
retrievable through findById as exactly the returned record, and its
status defaults to scheduled when the request carried none. -/
theorem claim_c5_roundtrip (st : State) (req : AppointmentRequest) (appt : Appointment)
    (st2 : State) (notes : List Notification)
    (h : execute st req = (Except.ok appt, st2, notes)) :
    serviceFindById st2 appt.id = Except.ok appt ∧
      (req.status = none → appt.status = "scheduled") := by
  unfold execute at h
  repeat' split at h
  all_goals try simp at h
  rename_i xd t hdate xp xq pid did hpid hdid hcond xr patient hpat xs doctor hdoc
  rcases hv : isDoctorAvailable st did (DateArg.date (JsDate.valid t)) with ⟨e | b, stA⟩
  · rw [hv] at h; simp at h
  · cases b
    · rw [hv] at h; simp at h
    · rw [hv] at h
      simp only [] at h
      set R0 : Appointment :=
        { id := req.id, date := JsDate.valid t, patient := patient, doctor := doctor,
          reason := req.reason, status := jsOrStrD req.status "scheduled",
          observations := jsOrStrD req.observations "" } with hR0
      rcases hadd : stA.appointments.add req.id R0 with e2 | repo
      · rw [hadd] at h; simp at h
      · rw [hadd] at h
        simp only [Prod.mk.injEq, Except.ok.injEq] at h
        obtain ⟨h1, h2, h3⟩ := h
        subst h1
        subst h2
        refine ⟨?_, ?_⟩
        · have hfind := Repo.findById_add hadd
          have hid : R0.id = req.id := by rw [hR0]
          simp [serviceFindById, hid, hfind]
        · intro hs
          rw [hR0]
          simp [jsOrStrD, hs]

/-- C5 witness: a concrete successful scheduling round-trips through
findById and defaults its status to scheduled. -/
theorem claim_c5_witness :
    serviceFindById stAfterW apptW.id = Except.ok apptW ∧
      (reqW.status = none → apptW.status = "scheduled") :=
  claim_c5_roundtrip stClean reqW apptW stAfterW
    [⟨"p1@example.com", "One", JsDate.valid mondayTenAM⟩] rfl

/-- C6: adding a day and time-slot pair that the doctor already has
raises the duplicate error and leaves the state, and so the
working-hours list, unchanged. -/
theorem claim_c6_duplicate_hours (st : State) (doctorId day timeSlot : String)
    (doctor : Doctor)
    (hdoc : st.doctors.findById doctorId = some doctor)
    (hmem : (⟨day, timeSlot⟩ : WorkingHour) ∈ doctor.workingHours.hours) :
    addDoctorWorkingHours st doctorId day timeSlot =
      (Except.error (JsError.error "Working hours already exists for this doctor"), st) := by
  unfold addDoctorWorkingHours
  rw [hdoc]
  simp only []
  have hdup : doctor.workingHours.hours.any
      (fun wh => decide (wh.day = day ∧ wh.timeSlot = timeSlot)) = true :=
    List.any_eq_true.2 ⟨_, hmem, by simp⟩
  rw [if_pos hdup]

/-- C6 witness: the duplicate error at doctor d1 and its existing Monday
slot. -/
theorem claim_c6_witness :
    addDoctorWorkingHours stClean "d1" "Monday" mondaySlotW =
      (Except.error (JsError.error "Working hours already exists for this doctor"),
        stClean) :=
  claim_c6_duplicate_hours stClean "d1" "Monday" mondaySlotW docD1 rfl (by decide)

/-- C7: removing the Monday morning slot of doctor d7 also removes the
Monday afternoon slot, which matches only the day: the filter keeps only
entries differing in both fields, while the claim keeps entries matching
one field. -/
theorem claim_c7_remove_hours_bug :
    docD7.workingHours.hours =
      [⟨"Monday", mondaySlotW⟩, ⟨"Monday", "01:00 PM - 03:00 PM"⟩] ∧
      ((removeWorkingHours stD7 "d7" "Monday" mondaySlotW).2.doctors.findById "d7").map
        (fun d => d.workingHours.hours) = some [] := by
  exact ⟨rfl, rfl⟩

/-- C8 counterexample: the doctor exists and the date is a valid Date
value (Monday 10:00), yet isDoctorAvailable raises a TypeError, because
the lone working-hours slot has no " - " separator and its day matches
the request: the claimed equivalence fails in the only-if direction. -/
theorem claim_c8_counterexample :
    stMal.doctors.findById "dm" = some docMal ∧
      (isDoctorAvailable stMal "dm" (DateArg.date (JsDate.valid mondayTenAM))).1 =
        Except.error (JsError.typeError "Cannot read properties of undefined") := by
  exact ⟨rfl, rfl⟩

/-- C8 amended: when every stored slot of every doctor contains the
separator, isDoctorAvailable raises exactly when the doctor is absent,
the argument is not a Date instance, or the argument is an Invalid Date
object (whose rejection log evaluates toISOString and so throws a
RangeError). -/
theorem claim_c8_raise_iff (st : State) (doctorId : String) (date : DateArg)
    (hwf : ∀ doc ∈ st.doctors.findAll, ∀ wh ∈ doc.workingHours.hours,
      2 ≤ (jsSplitOn " - " wh.timeSlot).length) :
    (∃ e, (isDoctorAvailable st doctorId date).1 = Except.error e) ↔
      (st.doctors.findById doctorId = none ∨ date = DateArg.nonDate ∨
        date = DateArg.date JsDate.invalid) := by
  cases hdoc : st.doctors.findById doctorId with
  | none =>
      unfold isDoctorAvailable
      rw [hdoc]
      exact ⟨fun _ => Or.inl rfl, fun _ => ⟨JsError.error "Doctor not found", rfl⟩⟩
  | some doctor =>
      have hwf' := hwf doctor (Repo.mem_findAll_of_findById hdoc)
      cases date with
      | nonDate =>
          unfold isDoctorAvailable
          rw [hdoc]
          exact ⟨fun _ => Or.inr (Or.inl rfl),
            fun _ => ⟨JsError.error "Invalid date", rfl⟩⟩
      | date d =>
          cases d with
          | invalid =>
              have hres : (isDoctorAvailable st doctorId (DateArg.date JsDate.invalid)).1 =
                  Except.error (JsError.rangeError "Invalid time value") := by
                unfold isDoctorAvailable
                rw [hdoc]
                simp [hasAppointmentConflict_invalid st doctorId,
                  isWithinWorkingHours_invalid doctor hwf', JsDate.toISOString]
              exact ⟨fun _ => Or.inr (Or.inr rfl), fun _ => ⟨_, hres⟩⟩
          | valid t =>
              obtain ⟨b, hb⟩ := isWithinWorkingHours_ok doctor (JsDate.valid t) hwf'
              constructor
              · rintro ⟨e, he⟩
                unfold isDoctorAvailable at he
                rw [hdoc] at he
                by_cases hc : (hasAppointmentConflict st doctorId (JsDate.valid t)).2
                · simp [hc, JsDate.toISOString] at he
                · cases b
                  · simp [hc, hb, JsDate.toISOString] at he
                  · simp [hc, hb] at he
              · rintro (hn | hn | hn)
                · exact absurd hn (by simp)
                · exact absurd hn (by simp)
                · exact absurd hn (by simp)

/-- C8 witness: the amended equivalence at the clean concrete state, a
present doctor and a valid Monday instant: neither side holds. -/
theorem claim_c8_witness :
    (∃ e, (isDoctorAvailable stClean "d1"
        (DateArg.date (JsDate.valid mondayTenAM))).1 = Except.error e) ↔
      (stClean.doctors.findById "d1" = none ∨
        DateArg.date (JsDate.valid mondayTenAM) = DateArg.nonDate ∨
        DateArg.date (JsDate.valid mondayTenAM) = DateArg.date JsDate.invalid) :=
  claim_c8_raise_iff stClean "d1" (DateArg.date (JsDate.valid mondayTenAM)) (by decide)

/-- C9 counterexample: a time slot missing the separator raises the
TypeError of the undefined end boundary instead of silently misparsing. -/
theorem claim_c9_counterexample :
    isTimeWithinSlot "10:00 AM" "09:00 AM to 05:00 PM" =
      Except.error (JsError.typeError "Cannot read properties of undefined") := by
  exact rfl

/-- C9 amended: a time slot containing the separator never raises,
however malformed (non-numeric components misparse to NaN comparisons
that are false, as the concrete conjunct shows), while a time slot
missing the separator raises a TypeError. -/
theorem claim_c9_malformed_slots :
    (∀ time timeSlot : String,
      if 2 ≤ (jsSplitOn " - " timeSlot).length then
        ∃ b, isTimeWithinSlot time timeSlot = Except.ok b
      else
        isTimeWithinSlot time timeSlot =
          Except.error (JsError.typeError "Cannot read properties of undefined")) ∧
      isTimeWithinSlot "10:00 AM" "abc - def" = Except.ok false := by
  constructor
  · intro time timeSlot
    by_cases h : 2 ≤ (jsSplitOn " - " timeSlot).length
    · rw [if_pos h]
      exact isTimeWithinSlot_ok_of_sep time timeSlot h
    · rw [if_neg h]
      exact isTimeWithinSlot_error_of_no_sep time timeSlot (by omega)
  · rfl

/-- C10: for every doctor present in the store, listWorkingHours raises
the TypeError of calling the working-hours array as a function, and so
never returns the list. -/
theorem claim_c10_list_hours_raises (st : State) (doctorId : String) (doctor : Doctor)
    (hdoc : st.doctors.findById doctorId = some doctor) :
    listWorkingHours st doctorId =
      Except.error (JsError.typeError "doctor.workingHours.hours is not a function") := by
  unfold listWorkingHours
  rw [hdoc]

/-- C10 witness: the TypeError at the concrete doctor d1. -/
theorem claim_c10_witness :
    listWorkingHours stClean "d1" =
      Except.error (JsError.typeError "doctor.workingHours.hours is not a function") :=
  claim_c10_list_hours_raises stClean "d1" docD1 rfl

end RocketMedic
